import Mathlib

/-!
Verification development for the ScryfallCardGolf repository
(single source module `ScryfallCardGolf/card_golf.py`).

The program runs a recurring card-golf contest on a social feed.  The
definitions below are a shallow embedding of its core logic:

* the entry validator `test_query` (card_golf.py lines 241-276),
* the reply scan `get_results` (lines 279-329),
* the JSON persistence helpers `write_to_json_db` / `load_json_db`
  (lines 181-213),
* the lifecycle check `is_active_contest_already` (lines 216-238) and
  the driver `start_game` (lines 342-387).

External collaborators (HTTP, Twitter, PIL imaging, the file system) are
modelled as explicit parameters: the Scryfall search endpoint becomes a
function `String → Option SearchResponse` (`none` = an error-shaped
response without the `total_cards` / `data` fields, which raises the
`KeyError` the source catches), the tweet poster becomes `send_tweet`
with explicit failure flags, and a JSON file on disk becomes an optional
JSON value (`none` = file absent).
-/

/-! ### Percent decoding (`urllib.parse.unquote`, used at card_golf.py lines 269 and 273)

Python's `unquote` decodes `%XX` hex escapes and leaves every other
character (including `+`) untouched.  We model the decoded byte as a
single character (a Latin-1 view of the byte); multi-byte UTF-8
reassembly is not modelled, which only affects how non-ASCII decoded
queries are counted, not any claim below. -/

/-- Numeric value of a decimal digit character. -/
def digitVal (c : Char) : Nat := c.toNat - 48

/-- Value of a hexadecimal digit character (upper or lower case). -/
def hexVal (c : Char) : Nat :=
  if c.isDigit then c.toNat - 48
  else if 'a' ≤ c ∧ c ≤ 'f' then c.toNat - 87
  else c.toNat - 55

/-- Is `c` a hexadecimal digit? -/
def isHexDig (c : Char) : Bool :=
  c.isDigit || ('a' ≤ c && c ≤ 'f') || ('A' ≤ c && c ≤ 'F')

/-- Character-level model of `urllib.parse.unquote`: decode `%XX`
sequences with two hex digits, keep everything else. -/
def unquoteFuel : Nat → List Char → List Char
  | 0, l => l
  | _ + 1, [] => []
  | fuel + 1, '%' :: c1 :: c2 :: rest =>
    if isHexDig c1 && isHexDig c2 then
      Char.ofNat (16 * hexVal c1 + hexVal c2) :: unquoteFuel fuel rest
    else
      '%' :: unquoteFuel fuel (c1 :: c2 :: rest)
  | fuel + 1, c :: rest => c :: unquoteFuel fuel rest

/-- Character list form of `unquote`.  Every step of `unquoteFuel`
consumes at least one input character, so `l.length` fuel always
suffices and the fuel case never fires on this call. -/
def unquoteChars (l : List Char) : List Char := unquoteFuel l.length l

/-- `urllib.parse.unquote` on strings. -/
def unquote (s : String) : String := ⟨unquoteChars s.data⟩

theorem unquoteFuel_ne_nil (f : Nat) (l : List Char) (h : l ≠ []) :
    unquoteFuel f l ≠ [] := by
  rw [unquoteFuel.eq_def]
  split
  · exact h
  · exact absurd rfl h
  · split <;> simp
  · simp

theorem unquoteChars_ne_nil (l : List Char) (h : l ≠ []) : unquoteChars l ≠ [] :=
  unquoteFuel_ne_nil l.length l h

theorem unquote_ne_empty (q : String) (h : q ≠ "") : unquote q ≠ "" := by
  intro hc
  apply h
  have hd : unquoteChars q.data = [] := congrArg String.data hc
  have hq : q.data = [] := by
    by_contra hne
    exact unquoteChars_ne_nil _ hne hd
  cases q
  cases hq
  rfl

/-! ### Query extraction (card_golf.py line 251)

`urlparse.parse_qs(urlparse.urlparse(scryfall_url).query)['q'][0]`:
the URL's query string is split into key/value pairs (each value already
percent-decoded by `parse_qs`); blank values are dropped
(`keep_blank_values` defaults to `False`); `['q'][0]` takes the first
value listed for key `q` and raises `KeyError` when there is none.
We model the already-split pair list and the extraction. -/

/-- First non-blank value of the `q` parameter, as
`parse_qs(...)['q'][0]` produces it (`none` models the `KeyError`). -/
def getQ (params : List (String × String)) : Option String :=
  (params.find? (fun p => p.1 == "q" && p.2 != "")).map Prod.snd

theorem getQ_ne_empty (params : List (String × String)) (q : String)
    (h : getQ params = some q) : q ≠ "" := by
  unfold getQ at h
  cases hf : params.find? (fun p => p.1 == "q" && p.2 != "") with
  | none => rw [hf] at h; exact Option.noConfusion h
  | some p =>
    rw [hf] at h
    simp only [Option.map_some', Option.some.injEq] at h
    have hp := List.find?_some hf
    simp only [Bool.and_eq_true, beq_iff_eq, bne_iff_ne, ne_eq] at hp
    rw [← h]
    exact hp.2

/-! ### The entry validator `test_query` (card_golf.py lines 241-276) -/

/-- The fields of a Scryfall card object read by the validator. -/
structure SFCard where
  name : String
deriving DecidableEq

/-- The fields of a Scryfall search response read by the validator
(line 256 reads `total_cards`, line 262 iterates `data`). -/
structure SearchResponse where
  total_cards : Int
  data : List SFCard
deriving DecidableEq

/-- `test_query` (card_golf.py lines 241-276).

* `search` is the Scryfall search endpoint (line 253-254); `none`
  models an error-shaped response whose missing fields raise the
  `KeyError` caught at line 274.
* `valid_cards` is the list built at line 261 from the max-key round's
  two stored card names (the store lookup is pure and is passed in
  here as the resulting list).
* `url_params` are the parsed query parameters of the submitted URL.

The loop at lines 262-265 returns `''` at the first result card whose
name is not in `valid_cards`; we write it as an `all` check.  Both the
`' or '` branch (line 267-269) and the normal branch (line 271-273)
return `urlparse.unquote(query)` — the difference is logging only —
so the accepted result is `unquote query` in either case. -/
def test_query (search : String → Option SearchResponse) (valid_cards : List String)
    (url_params : List (String × String)) : String :=
  match getQ url_params with
  | none => ""
  | some query =>
    match search query with
    | none => ""
    | some response =>
      if response.data.all (fun card => decide (card.name ∈ valid_cards)) then
        unquote query
      else ""

/-- The `' or ' in query.lower()` test at card_golf.py line 267
(logging only: the validator accepts either way). -/
def leadsWith : List Char → List Char → Bool
  | [], _ => true
  | _ :: _, [] => false
  | a :: as, b :: bs => a == b && leadsWith as bs

/-- Does `needle` occur as a contiguous substring of `hay`? -/
def strContains (hay needle : List Char) : Bool :=
  hay.tails.any (fun t => leadsWith needle t)

/-- Character-level model of `str.lower()` (ASCII case folding, which
is all the source's `' or '` test needs). -/
def lowerChars (l : List Char) : List Char := l.map Char.toLower

/-- `' or ' in query.lower()` (card_golf.py line 267). -/
def hasOrKeyword (s : String) : Bool :=
  strContains (lowerChars s.data) (" or ").data

/-- Is the optional character a letter?  (Helper for the whole-word
test below; `none` stands for a string boundary.) -/
def optIsAlpha : Option Char → Bool
  | some c => c.isAlpha
  | none => false

/-- Index-based whole-word search for "or" in a character list. -/
def orWordIndex (l : List Char) : Bool :=
  (List.range l.length).any (fun i =>
    (l.get? i == some 'o') && (l.get? (i + 1) == some 'r') &&
    (decide (i = 0) || !(optIsAlpha (l.get? (i - 1)))) &&
    !(optIsAlpha (l.get? (i + 2))))

/-- The spec's "contains the disjunction keyword (`or`, case-insensitive,
as a whole word)". -/
def containsOrWord (s : String) : Bool :=
  orWordIndex (lowerChars s.data)

/-- C3: with the `q` parameter present and the search lookup succeeding,
`test_query` returns the empty (reject) result iff some returned card's
name is not one of the two stored names; and the `total_cards` field of
the response (logged at line 257 when it is not 2) has no influence on
the outcome. -/
theorem test_query_reject_iff_bad_name
    (search : String → Option SearchResponse) (n1 n2 : String)
    (params : List (String × String)) (q : String) (resp : SearchResponse)
    (hq : getQ params = some q) (hs : search q = some resp) :
    (test_query search [n1, n2] params = "" ↔
      ∃ c ∈ resp.data, c.name ≠ n1 ∧ c.name ≠ n2) ∧
    (∀ t : Int,
      test_query (fun s => if s = q then some ⟨t, resp.data⟩ else search s) [n1, n2] params
        = test_query search [n1, n2] params) := by
  constructor
  · simp only [test_query, hq, hs]
    by_cases hall : resp.data.all (fun card => decide (card.name ∈ [n1, n2])) = true
    · rw [if_pos hall]
      simp only [List.all_eq_true, decide_eq_true_eq, List.mem_cons,
        List.mem_singleton, List.not_mem_nil] at hall
      constructor
      · intro hu
        exact absurd hu (unquote_ne_empty q (getQ_ne_empty params q hq))
      · rintro ⟨c, hc, hcn1, hcn2⟩
        rcases hall c hc with h | h
        · exact absurd h hcn1
        · rcases h with h | h
          · exact absurd h hcn2
          · exact h.elim
    · rw [if_neg hall]
      simp only [List.all_eq_true, decide_eq_true_eq, not_forall] at hall
      constructor
      · intro _
        obtain ⟨c, hc, hcn⟩ := hall
        refine ⟨c, hc, ?_, ?_⟩
        · intro h; exact hcn (by simp [h])
        · intro h; exact hcn (by simp [h])
      · intro _; rfl
  · intro t
    simp [test_query, hq, hs]

/-- C4: a query that passes the name-match check is accepted (the
decoded query, which is non-empty, is returned) even when the query
contains the disjunction keyword "or" as a whole word — the `' or '`
branch at card_golf.py lines 267-269 only logs and still returns the
decoded query. -/
theorem test_query_accepts_or
    (search : String → Option SearchResponse) (n1 n2 : String)
    (params : List (String × String)) (q : String) (resp : SearchResponse)
    (hq : getQ params = some q) (hs : search q = some resp)
    (hnames : ∀ c ∈ resp.data, c.name = n1 ∨ c.name = n2)
    (hor : containsOrWord q = true) :
    test_query search [n1, n2] params = unquote q ∧ unquote q ≠ "" := by
  have hall : resp.data.all (fun card => decide (card.name ∈ [n1, n2])) = true := by
    simp only [List.all_eq_true, decide_eq_true_eq, List.mem_cons, List.mem_singleton]
    intro c hc
    rcases hnames c hc with h | h
    · exact Or.inl h
    · exact Or.inr (Or.inl h)
  refine ⟨?_, unquote_ne_empty q (getQ_ne_empty params q hq)⟩
  simp only [test_query, hq, hs]
  rw [if_pos hall]

/-- C10: acceptance does not require both stored names to appear among
the results: any non-empty result set in which every card name equals
one of the two stored names is accepted.  (The loop at lines 262-265
only checks each returned name for membership; it never checks that
both targets were found.) -/
theorem test_query_accepts_without_both_names
    (search : String → Option SearchResponse) (n1 n2 : String)
    (params : List (String × String)) (q : String) (resp : SearchResponse)
    (hq : getQ params = some q) (hs : search q = some resp)
    (hne : resp.data ≠ [])
    (hnames : ∀ c ∈ resp.data, c.name = n1 ∨ c.name = n2) :
    test_query search [n1, n2] params ≠ "" := by
  have hall : resp.data.all (fun card => decide (card.name ∈ [n1, n2])) = true := by
    simp only [List.all_eq_true, decide_eq_true_eq, List.mem_cons, List.mem_singleton]
    intro c hc
    rcases hnames c hc with h | h
    · exact Or.inl h
    · exact Or.inr (Or.inl h)
  simp only [test_query, hq, hs, hall, if_pos]
  exact unquote_ne_empty q (getQ_ne_empty params q hq)

/-- Witness for `test_query_reject_iff_bad_name` at a concrete input:
query `x`, search returning cards `A` and `C`, round names `A`, `B` —
the entry is rejected because `C` is not a stored name. -/
theorem test_query_reject_iff_bad_name_witness :
    (test_query (fun s => if s = "x" then some ⟨2, [⟨"A"⟩, ⟨"C"⟩]⟩ else none)
        ["A", "B"] [("q", "x")] = "" ↔
      ∃ c ∈ ([⟨"A"⟩, ⟨"C"⟩] : List SFCard), c.name ≠ "A" ∧ c.name ≠ "B") ∧
    (∀ t : Int,
      test_query (fun s => if s = "x" then some ⟨t, [⟨"A"⟩, ⟨"C"⟩]⟩ else
          (fun s => if s = "x" then some ⟨2, [⟨"A"⟩, ⟨"C"⟩]⟩ else none) s)
        ["A", "B"] [("q", "x")]
        = test_query (fun s => if s = "x" then some ⟨2, [⟨"A"⟩, ⟨"C"⟩]⟩ else none)
            ["A", "B"] [("q", "x")]) :=
  test_query_reject_iff_bad_name
    (fun s => if s = "x" then some ⟨2, [⟨"A"⟩, ⟨"C"⟩]⟩ else none)
    "A" "B" [("q", "x")] "x" ⟨2, [⟨"A"⟩, ⟨"C"⟩]⟩ (by decide) (by decide)

/-- Witness for `test_query_accepts_or` at a concrete input: the query
`"lightning bolt" or "shock"` contains the whole word `or`, matches the
two stored names, and is accepted. -/
theorem test_query_accepts_or_witness :
    test_query
        (fun s => if s = ("\x22lightning bolt\x22 or \x22shock\x22") then
          some ⟨2, [⟨"Lightning Bolt"⟩, ⟨"Shock"⟩]⟩ else none)
        ["Lightning Bolt", "Shock"]
        [("q", "\x22lightning bolt\x22 or \x22shock\x22")]
      = unquote ("\x22lightning bolt\x22 or \x22shock\x22") ∧
    unquote ("\x22lightning bolt\x22 or \x22shock\x22") ≠ "" :=
  test_query_accepts_or
    (fun s => if s = ("\x22lightning bolt\x22 or \x22shock\x22") then
      some ⟨2, [⟨"Lightning Bolt"⟩, ⟨"Shock"⟩]⟩ else none)
    "Lightning Bolt" "Shock"
    [("q", "\x22lightning bolt\x22 or \x22shock\x22")]
    ("\x22lightning bolt\x22 or \x22shock\x22")
    ⟨2, [⟨"Lightning Bolt"⟩, ⟨"Shock"⟩]⟩
    (by decide) (by decide) (by decide) (by decide)

/-- Witness for `test_query_accepts_without_both_names` at a concrete
input: the search returns a single card matching only the first of the
two stored names, and the entry is still accepted. -/
theorem test_query_accepts_without_both_names_witness :
    test_query (fun s => if s = "y" then some ⟨1, [⟨"A"⟩]⟩ else none)
      ["A", "B"] [("q", "y")] ≠ "" :=
  test_query_accepts_without_both_names
    (fun s => if s = "y" then some ⟨1, [⟨"A"⟩]⟩ else none)
    "A" "B" [("q", "y")] "y" ⟨1, [⟨"A"⟩]⟩
    (by decide) (by decide) (by decide) (by decide)

/-! ### The Pattern/Plain classifier (card_golf.py line 324)

`re.search(r'/.+/', test_query_results)`: the query is a Pattern
(regex) entry iff some substring starts with `/`, ends with `/`, and
has at least one character in between, none of which is a newline
(`.` does not match a newline without `re.DOTALL`).  `slashCloses rest
seen` scans the characters after an opening `/` looking for a closing
`/`; `seen` records whether at least one interior character has been
consumed.  `tails.any` tries every start position, as `re.search`
does. -/

/-- Scan for a closing `/` after an opening one: fails at a newline,
succeeds at a `/` once at least one interior character was consumed. -/
def slashCloses : List Char → Bool → Bool
  | [], _ => false
  | c :: rest, seen =>
    if c = '\n' then false
    else if c = '/' then (if seen then true else slashCloses rest true)
    else slashCloses rest true

/-- Does this tail start a `/.+/` match? -/
def tailStartsSlash : List Char → Bool
  | '/' :: rest => slashCloses rest false
  | _ => false

/-- `re.search(r'/.+/', s) is not None` (card_golf.py line 324). -/
def hasRegexSegment (s : String) : Bool :=
  s.data.tails.any tailStartsSlash

theorem tailStartsSlash_iff (t : List Char) :
    tailStartsSlash t = true ↔ ∃ rest, t = '/' :: rest ∧ slashCloses rest false = true := by
  rw [tailStartsSlash.eq_def]
  split
  · rename_i rest
    simp
  · rename_i hne
    constructor
    · intro h; exact absurd h (by simp)
    · rintro ⟨rest, rfl, hr⟩
      exact absurd rfl (hne rest)

theorem slashCloses_iff (l : List Char) : ∀ seen : Bool,
    slashCloses l seen = true ↔
      ∃ mid post, l = mid ++ '/' :: post ∧ (seen = true ∨ mid ≠ []) ∧ ∀ c ∈ mid, c ≠ '\n' := by
  induction l with
  | nil =>
    intro seen
    simp [slashCloses]
  | cons c rest ih =>
    intro seen
    by_cases hnl : c = '\n'
    · subst hnl
      simp only [slashCloses, if_pos rfl]
      constructor
      · intro h; exact absurd h (by simp)
      · rintro ⟨mid, post, heq, _, hnlm⟩
        cases mid with
        | nil =>
          injection heq with h1 _
          exact absurd h1 (by decide)
        | cons m ms =>
          injection heq with h1 _
          exact absurd h1.symm (hnlm m (List.mem_cons_self m ms))
    · by_cases hsl : c = '/'
      · subst hsl
        cases seen with
        | true =>
          constructor
          · intro _
            exact ⟨[], rest, rfl, Or.inl rfl, by simp⟩
          · intro _
            simp [slashCloses, hnl]
        | false =>
          have hstep : slashCloses ('/' :: rest) false = slashCloses rest true := by
            simp [slashCloses, hnl]
          rw [hstep, ih true]
          constructor
          · rintro ⟨mid, post, heq, _, hnlm⟩
            refine ⟨'/' :: mid, post, by rw [heq]; rfl, Or.inr (by simp), ?_⟩
            intro x hx
            rcases List.mem_cons.mp hx with h | h
            · subst h; decide
            · exact hnlm x h
          · rintro ⟨mid, post, heq, hne, hnlm⟩
            rcases hne with h | h
            · exact absurd h (by simp)
            · cases mid with
              | nil => exact absurd rfl h
              | cons m ms =>
                injection heq with _ h2
                exact ⟨ms, post, h2, Or.inl rfl, fun x hx => hnlm x (List.mem_cons_of_mem m hx)⟩
      · simp only [slashCloses, if_neg hnl, if_neg hsl]
        rw [ih true]
        constructor
        · rintro ⟨mid, post, heq, _, hnlm⟩
          refine ⟨c :: mid, post, by rw [heq]; rfl, Or.inr (by simp), ?_⟩
          intro x hx
          rcases List.mem_cons.mp hx with h | h
          · subst h; exact hnl
          · exact hnlm x h
        · rintro ⟨mid, post, heq, _, hnlm⟩
          cases mid with
          | nil =>
            injection heq with h1 _
            exact absurd h1 hsl
          | cons m ms =>
            injection heq with h1 h2
            exact ⟨ms, post, h2, Or.inl rfl, fun x hx => hnlm x (List.mem_cons_of_mem m hx)⟩

theorem hasRegexSegment_iff (s : String) :
    hasRegexSegment s = true ↔
      ∃ pre mid post : List Char,
        s.data = pre ++ '/' :: (mid ++ '/' :: post) ∧ mid ≠ [] ∧ ∀ c ∈ mid, c ≠ '\n' := by
  unfold hasRegexSegment
  rw [List.any_eq_true]
  constructor
  · rintro ⟨t, ht, hp⟩
    rw [tailStartsSlash_iff] at hp
    obtain ⟨rest, rfl, hr⟩ := hp
    rw [List.mem_tails] at ht
    obtain ⟨pre, hpre⟩ := ht
    rw [slashCloses_iff] at hr
    obtain ⟨mid, post, heq, hne, hnlm⟩ := hr
    rcases hne with h | h
    · exact absurd h (by simp)
    · exact ⟨pre, mid, post, by rw [← hpre, heq], h, hnlm⟩
  · rintro ⟨pre, mid, post, heq, hne, hnlm⟩
    refine ⟨'/' :: (mid ++ '/' :: post), ?_, ?_⟩
    · rw [List.mem_tails]
      exact ⟨pre, heq.symm⟩
    · rw [tailStartsSlash_iff]
      refine ⟨mid ++ '/' :: post, rfl, ?_⟩
      rw [slashCloses_iff]
      exact ⟨mid, post, rfl, Or.inr hne, hnlm⟩

/-! ### The reply scan `get_results` (card_golf.py lines 279-329) -/

/-- The fields of one entry of `item['entities']['urls']` that the scan
reads: whether `'scryfall.com' in url['expanded_url']` (line 312), and
the parsed query parameters of the expanded url. -/
structure ReplyUrl where
  onScryfall : Bool
  params : List (String × String)
deriving DecidableEq

/-- The fields of one timeline item the scan reads: whether the item
has a `text` field (line 305; a missing `text` is the rate-limit
marker that ends the scan), `item['user']['screen_name']`, and its
urls. -/
structure Reply where
  hasText : Bool
  user : String
  urls : List ReplyUrl
deriving DecidableEq

/-- The per-winner record built at card_golf.py lines 318-322. -/
structure WEntry where
  name : String
  length : Nat
  query : String
deriving DecidableEq

/-- Handling of one url of one reply (lines 310-327): skip non-Scryfall
urls, run `test_query`, and on a non-empty (accepted) result build the
entry and classify it (`true` = regex/Pattern entry, line 324). -/
def processUrl (search : String → Option SearchResponse) (valid_cards : List String)
    (user : String) (u : ReplyUrl) : Option (Bool × WEntry) :=
  if u.onScryfall then
    if test_query search valid_cards u.params = "" then none
    else some (hasRegexSegment (test_query search valid_cards u.params),
      ⟨user, (test_query search valid_cards u.params).length,
        test_query search valid_cards u.params⟩)
  else none

/-- Scan of the urls of one reply, in order, returning the (normal,
regex) entry lists it contributes (lines 310-327). -/
def classifyUrls (search : String → Option SearchResponse) (valid_cards : List String)
    (user : String) : List ReplyUrl → List WEntry × List WEntry
  | [] => ([], [])
  | u :: us =>
    match processUrl search valid_cards user u with
    | none => classifyUrls search valid_cards user us
    | some (false, e) =>
      (e :: (classifyUrls search valid_cards user us).1,
       (classifyUrls search valid_cards user us).2)
    | some (true, e) =>
      ((classifyUrls search valid_cards user us).1,
       e :: (classifyUrls search valid_cards user us).2)

/-- `get_results` (card_golf.py lines 279-329) over the fetched reply
items, in order: returns `(valid_normal_entries, valid_regex_entries)`.
An item without a `text` field ends the scan (lines 305-307).
`valid_cards` is, as in `test_query`, the pair of names stored in the
max-key round. -/
def get_results (search : String → Option SearchResponse) (valid_cards : List String) :
    List Reply → List WEntry × List WEntry
  | [] => ([], [])
  | item :: rest =>
    if item.hasText then
      ((classifyUrls search valid_cards item.user item.urls).1
          ++ (get_results search valid_cards rest).1,
       (classifyUrls search valid_cards item.user item.urls).2
          ++ (get_results search valid_cards rest).2)
    else ([], [])

theorem processUrl_eq_none_of_bad (search : String → Option SearchResponse)
    (valid_cards : List String) (user : String) (u : ReplyUrl)
    (h : u.onScryfall = false ∨ getQ u.params = none ∨
      (∀ q, getQ u.params = some q → search q = none)) :
    processUrl search valid_cards user u = none := by
  rcases h with h | h | h
  · simp [processUrl, h]
  · have htq : test_query search valid_cards u.params = "" := by
      simp [test_query, h]
    simp [processUrl, htq]
  · have htq : test_query search valid_cards u.params = "" := by
      cases hq : getQ u.params with
      | none => simp [test_query, hq]
      | some q => simp [test_query, hq, h q hq]
    simp [processUrl, htq]

theorem classifyUrls_eq_nil (search : String → Option SearchResponse)
    (valid_cards : List String) (user : String) (urls : List ReplyUrl)
    (h : ∀ u ∈ urls, processUrl search valid_cards user u = none) :
    classifyUrls search valid_cards user urls = ([], []) := by
  induction urls with
  | nil => rfl
  | cons u us ih =>
    simp only [classifyUrls, h u (List.mem_cons_self u us)]
    exact ih (fun v hv => h v (List.mem_cons_of_mem u hv))

/-- C9: a reply whose urls are all invalid — not a Scryfall link, no
`q` parameter (the `KeyError` of line 251, caught at line 274), or a
failing card-database lookup (the `KeyError` of lines 256/262, caught
at line 274) — contributes nothing, and the scan of the remaining
replies is unaffected; moreover a missing `q` parameter by itself makes
`test_query` return the empty (skipped) result. -/
theorem bad_entries_skipped (search : String → Option SearchResponse)
    (valid_cards : List String) (xs ys : List Reply) (bad : Reply)
    (htext : bad.hasText = true)
    (hbad : ∀ u ∈ bad.urls,
      u.onScryfall = false ∨ getQ u.params = none ∨
        (∀ q, getQ u.params = some q → search q = none)) :
    get_results search valid_cards (xs ++ bad :: ys)
        = get_results search valid_cards (xs ++ ys) ∧
    (∀ u : ReplyUrl, getQ u.params = none →
      test_query search valid_cards u.params = "") := by
  constructor
  · have hcls : classifyUrls search valid_cards bad.user bad.urls = ([], []) :=
      classifyUrls_eq_nil _ _ _ _
        (fun u hu => processUrl_eq_none_of_bad _ _ _ _ (hbad u hu))
    induction xs with
    | nil =>
      simp [get_results, htext, hcls]
    | cons x xs' ih =>
      simp only [List.cons_append, get_results, List.append_eq, ih]
  · intro u h
    simp [test_query, h]

/-- Witness for `bad_entries_skipped` at a concrete input: a reply
whose single Scryfall url has no `q` parameter is skipped and the later
valid reply is still processed. -/
theorem bad_entries_skipped_witness :
    get_results (fun s => if s = "q1" then some ⟨2, [⟨"A"⟩]⟩ else none) ["A", "B"]
        ([] ++ (⟨true, "bob", [⟨true, [("x", "1")]⟩]⟩ : Reply) ::
          [⟨true, "carol", [⟨true, [("q", "q1")]⟩]⟩])
      = get_results (fun s => if s = "q1" then some ⟨2, [⟨"A"⟩]⟩ else none) ["A", "B"]
          ([] ++ [⟨true, "carol", [⟨true, [("q", "q1")]⟩]⟩]) :=
  (bad_entries_skipped (fun s => if s = "q1" then some ⟨2, [⟨"A"⟩]⟩ else none)
    ["A", "B"] [] [⟨true, "carol", [⟨true, [("q", "q1")]⟩]⟩]
    ⟨true, "bob", [⟨true, [("x", "1")]⟩]⟩
    (by decide)
    (by
      intro u hu
      simp only [List.mem_singleton] at hu
      subst hu
      exact Or.inr (Or.inl (by decide)))).1

/-- C5 (amended): an accepted entry is classified as a Pattern (regex)
entry iff its query text contains a slash-delimited segment with
non-empty interior made of non-newline characters — `.` in the
classifier's `/.+/` (card_golf.py line 324) does not match a newline,
so a `/…/` segment whose only interior characters are newlines does
not count. -/
theorem accepted_entry_pattern_iff_segment (search : String → Option SearchResponse)
    (valid_cards : List String) (user : String) (u : ReplyUrl) (b : Bool) (e : WEntry)
    (h : processUrl search valid_cards user u = some (b, e)) :
    b = true ↔ ∃ pre mid post : List Char,
      e.query.data = pre ++ '/' :: (mid ++ '/' :: post) ∧ mid ≠ [] ∧
        ∀ c ∈ mid, c ≠ '\n' := by
  unfold processUrl at h
  by_cases hon : u.onScryfall
  · rw [if_pos hon] at h
    by_cases hq : test_query search valid_cards u.params = ""
    · rw [if_pos hq] at h
      exact Option.noConfusion h
    · rw [if_neg hq] at h
      simp only [Option.some.injEq, Prod.mk.injEq] at h
      obtain ⟨hb, he⟩ := h
      subst hb
      subst he
      exact hasRegexSegment_iff (test_query search valid_cards u.params)
  · rw [if_neg hon] at h
    exact Option.noConfusion h

/-- Witness for `accepted_entry_pattern_iff_segment` at a concrete
input: the accepted query `/a/` is classified as a Pattern entry. -/
theorem accepted_entry_pattern_iff_segment_witness :
    true = true ↔ ∃ pre mid post : List Char,
      (WEntry.query ⟨"u", 3, "/a/"⟩).data = pre ++ '/' :: (mid ++ '/' :: post) ∧
        mid ≠ [] ∧ ∀ c ∈ mid, c ≠ '\n' :=
  accepted_entry_pattern_iff_segment
    (fun s => if s = "/a/" then some ⟨2, [⟨"A"⟩]⟩ else none)
    ["A", "B"] "u" ⟨true, [("q", "/a/")]⟩ true ⟨"u", 3, "/a/"⟩
    (by decide)

/-- C5 counterexample: the accepted query consisting of a slash, a
newline, and a slash has a slash-delimited segment with non-empty
interior, yet the scan classifies the entry as Plain (it lands in the
`valid_normal_entries` list and the regex list stays empty), because
`.` in `/.+/` does not match a newline. -/
theorem pattern_claim_counterexample :
    (∃ pre mid post : List Char,
      ("/\n/" : String).data = pre ++ '/' :: (mid ++ '/' :: post) ∧ mid ≠ []) ∧
    hasRegexSegment ("/\n/") = false ∧
    get_results (fun q => if q = "/\n/" then some ⟨2, [⟨"A"⟩, ⟨"B"⟩]⟩ else none)
        ["A", "B"] [⟨true, "alice", [⟨true, [("q", "/\n/")]⟩]⟩]
      = ([⟨"alice", 3, "/\n/"⟩], []) :=
  ⟨⟨[], ['\n'], [], by decide, by simp⟩, by decide, by decide⟩

/-! ### The results write (card_golf.py lines 181-200, `database=False` branch)

`write_to_json_db` with `database=False` builds the winners record
`{'standard': sorted(entry[0], key=extract_query_length),
  'regex':    sorted(entry[1], key=extract_query_length)}`.
Python's `sorted` is a stable sort by the key; `List.insertionSort`
with the key's `≤` relation is a stable sort with the same
input/output behaviour, so it is used as its model. -/

/-- `extract_query_length` (card_golf.py lines 41-47): the sort key of
a winner record is its `length` field.  (The `.get('length', 0)`
default never fires for records built by `get_results`, which always
set `length`; the field access is total here.) -/
def extract_query_length (e : WEntry) : Nat := e.length

/-- The sort relation used by `sorted(..., key=extract_query_length)`. -/
def lenLE (a b : WEntry) : Prop := extract_query_length a ≤ extract_query_length b

instance : DecidableRel lenLE := fun a b => Nat.decLe _ _

instance : IsTotal WEntry lenLE := ⟨fun a b => Nat.le_total _ _⟩

instance : IsTrans WEntry lenLE := ⟨fun _ _ _ h h2 => Nat.le_trans h h2⟩

/-- `write_to_json_db` with `database=False` (card_golf.py lines
194-196): the pair is `(feeds['standard'], feeds['regex'])`, i.e. the
two entry lists of the concluded round, each sorted ascending by
`extract_query_length`. -/
def write_to_json_db_results (entry : List WEntry × List WEntry) :
    List WEntry × List WEntry :=
  (List.insertionSort lenLE entry.1, List.insertionSort lenLE entry.2)

theorem filter_orderedInsert (n : Nat) (a : WEntry) (l : List WEntry) :
    (List.orderedInsert lenLE a l).filter (fun e => extract_query_length e == n)
      = if extract_query_length a = n then
          a :: l.filter (fun e => extract_query_length e == n)
        else l.filter (fun e => extract_query_length e == n) := by
  induction l with
  | nil =>
    by_cases ha : extract_query_length a = n
    · simp [List.orderedInsert, ha]
    · simp [List.orderedInsert, ha]
  | cons b t ih =>
    by_cases hab : lenLE a b
    · rw [List.orderedInsert, if_pos hab]
      by_cases ha : extract_query_length a = n
      · simp [List.filter_cons, ha]
      · simp [List.filter_cons, ha]
    · rw [List.orderedInsert, if_neg hab]
      have hlt : extract_query_length b < extract_query_length a :=
        Nat.lt_of_not_le hab
      by_cases hb : extract_query_length b = n
      · have ha : ¬extract_query_length a = n := by
          intro ha
          rw [ha, hb] at hlt
          exact Nat.lt_irrefl n hlt
        simp [List.filter_cons, hb, ih, ha]
      · simp [List.filter_cons, hb, ih]

theorem filter_insertionSort (n : Nat) (l : List WEntry) :
    (List.insertionSort lenLE l).filter (fun e => extract_query_length e == n)
      = l.filter (fun e => extract_query_length e == n) := by
  induction l with
  | nil => rfl
  | cons a t ih =>
    rw [List.insertionSort, filter_orderedInsert, ih]
    by_cases ha : extract_query_length a = n
    · simp [List.filter_cons, ha]
    · simp [List.filter_cons, ha]

/-- C6: both sequences of a written winners record are sorted
non-decreasing by `extract_query_length`, and the sort is stable:
for every key value, the subsequence of entries with that
`query_length` is exactly the subsequence of the input (submission
scan order preserved among equal lengths). -/
theorem results_record_sorted_and_stable (entry : List WEntry × List WEntry) :
    List.Sorted lenLE (write_to_json_db_results entry).1 ∧
    List.Sorted lenLE (write_to_json_db_results entry).2 ∧
    ∀ n : Nat,
      (write_to_json_db_results entry).1.filter (fun e => extract_query_length e == n)
          = entry.1.filter (fun e => extract_query_length e == n) ∧
      (write_to_json_db_results entry).2.filter (fun e => extract_query_length e == n)
          = entry.2.filter (fun e => extract_query_length e == n) :=
  ⟨List.sorted_insertionSort lenLE entry.1,
   List.sorted_insertionSort lenLE entry.2,
   fun n => ⟨filter_insertionSort n entry.1, filter_insertionSort n entry.2⟩⟩

/-! ### The contest store (card_golf.py lines 181-213)

The `TWEET_DATABASE` file holds one JSON object mapping timestamp keys
to round records.  The file is modelled at the JSON level: `none` = no
file yet, `some kvs` = a file holding the JSON object with pair list
`kvs`.  The text (de)serialisation `json.dumps` / `json.load`
(including the `indent=4, sort_keys=True` formatting of the output
text) is the external `json` library and round-trips the object. -/

/-- JSON values, as far as this program stores them. -/
inductive Json where
  | str : String → Json
  | num : Int → Json
  | arr : List Json → Json
  | obj : List (String × Json) → Json

/-- Dictionary lookup on a JSON object's pair list. -/
def lookupKV (k : String) : List (String × Json) → Option Json
  | [] => none
  | kv :: rest => if kv.1 = k then some kv.2 else lookupKV k rest

/-- Python dict assignment `d[k] = v`: replace in place when the key
exists, append otherwise. -/
def insertKV (k : String) (v : Json) : List (String × Json) → List (String × Json)
  | [] => [(k, v)]
  | kv :: rest => if kv.1 = k then (k, v) :: rest else kv :: insertKV k v rest

/-- `load_json_db` (card_golf.py lines 203-213): `{}` when the backing
file does not exist, its parsed contents otherwise. -/
def load_json_db (file : Option (List (String × Json))) : List (String × Json) :=
  match file with
  | none => []
  | some kvs => kvs

/-- `write_to_json_db` with `database=True` (card_golf.py lines
188-193): re-read the existing file (the same behaviour as
`load_json_db`), set `feeds[now_key] = entry` where `now_key` is
`time.strftime('%Y-%m-%d_%H:%M:%S')` (the formatted current time,
passed in as a parameter), and write the object back. -/
def write_to_json_db_database (file : Option (List (String × Json)))
    (now_key : String) (entry : Json) : List (String × Json) :=
  insertKV now_key entry (load_json_db file)

/-- The fields of a Scryfall random-card object that `start_game`
persists (card_golf.py lines 376-385). -/
structure RCard where
  name : String
  scryfall_uri : String

/-- One stored card record `{'name': ..., 'url': ...}` (lines 378-384). -/
def cardJson (c : RCard) : Json :=
  Json.obj [("name", Json.str c.name), ("url", Json.str c.scryfall_uri)]

/-- The `json_entry` round record built at lines 376-385. -/
def roundJson (tweet_id : Int) (c1 c2 : RCard) : Json :=
  Json.obj [("tweet_id", Json.num tweet_id),
            ("cards", Json.arr [cardJson c1, cardJson c2])]

/-- `j[k]` on a JSON object. -/
def jField (j : Json) (k : String) : Option Json :=
  match j with
  | Json.obj kvs => lookupKV k kvs
  | _ => none

/-- `j[i]` on a JSON array. -/
def jItem (j : Json) (i : Nat) : Option Json :=
  match j with
  | Json.arr l => l.get? i
  | _ => none

/-- A JSON string's value. -/
def jString : Json → Option String
  | Json.str s => some s
  | _ => none

/-- A JSON number's value. -/
def jInt : Json → Option Int
  | Json.num n => some n
  | _ => none

/-- Read the fields of a stored round record back the way the
consumers do: `['tweet_id']` at line 301, `['cards'][0]['name']` /
`['cards'][1]['name']` at line 261, and the card `url`s stored at
lines 378-384. -/
def roundFields (j : Json) : Option (Int × (String × String) × (String × String)) := do
  let tid ← (jField j ("tweet_id")).bind jInt
  let cards ← jField j ("cards")
  let c0 ← jItem cards 0
  let c1 ← jItem cards 1
  let n0 ← (jField c0 ("name")).bind jString
  let u0 ← (jField c0 ("url")).bind jString
  let n1 ← (jField c1 ("name")).bind jString
  let u1 ← (jField c1 ("url")).bind jString
  some (tid, (n0, u0), (n1, u1))

theorem lookupKV_insertKV (k : String) (v : Json) (l : List (String × Json)) :
    lookupKV k (insertKV k v l) = some v := by
  induction l with
  | nil => simp [insertKV, lookupKV]
  | cons kv rest ih =>
    by_cases h : kv.1 = k
    · simp [insertKV, h, lookupKV]
    · simp [insertKV, h, lookupKV, ih]

/-- C7: persisting a round under its timestamp key and reloading the
store reproduces it exactly: the key maps to the very record written,
and reading its fields back the way the consumers do yields the posted
tweet id and both cards' name/url pairs unchanged. -/
theorem round_roundtrip_preserves_fields (file : Option (List (String × Json)))
    (key : String) (tweet_id : Int) (c1 c2 : RCard) :
    lookupKV key (load_json_db (some
        (write_to_json_db_database file key (roundJson tweet_id c1 c2))))
      = some (roundJson tweet_id c1 c2) ∧
    roundFields (roundJson tweet_id c1 c2)
      = some (tweet_id, (c1.name, c1.scryfall_uri), (c2.name, c2.scryfall_uri)) := by
  constructor
  · exact lookupKV_insertKV key (roundJson tweet_id c1 c2) (load_json_db file)
  · rfl

/-! ### Timestamps (card_golf.py line 230)

`datetime.datetime.strptime(max_key, '%Y-%m-%d_%H:%M:%S')` parses a
store key; adding `timedelta(days=1)` to a naive datetime adds exactly
86400 seconds.  We represent a parsed datetime by its second count on
the proleptic-Gregorian timeline (days via the standard civil-calendar
day-number computation).  Only the zero-padded form that
`time.strftime('%Y-%m-%d_%H:%M:%S')` emits when keys are written is
parsed; `none` models the `ValueError` that `strptime` raises on
anything else (which, at line 230, is outside the `try` block and
aborts the run). -/

/-- Parse two decimal digit characters. -/
def twoDigits (a b : Char) : Option Nat :=
  if a.isDigit && b.isDigit then some (10 * digitVal a + digitVal b) else none

/-- Parse four decimal digit characters. -/
def fourDigits (a b c d : Char) : Option Nat :=
  if a.isDigit && b.isDigit && c.isDigit && d.isDigit then
    some (1000 * digitVal a + 100 * digitVal b + 10 * digitVal c + digitVal d)
  else none

/-- Gregorian leap-year test. -/
def isLeapYear (y : Nat) : Bool :=
  y % 4 == 0 && (y % 100 != 0 || y % 400 == 0)

/-- Days in a month of the proleptic Gregorian calendar. -/
def daysInMonth (y m : Nat) : Nat :=
  if m = 2 then (if isLeapYear y then 29 else 28)
  else if m = 4 ∨ m = 6 ∨ m = 9 ∨ m = 11 then 30 else 31

/-- Day number of a civil date, with day 0 = 1970-01-01 (the standard
era/year-of-era computation; all intermediate values are non-negative
for years ≥ 1). -/
def daysFromCivil (y m d : Nat) : Int :=
  let yAdj : Int := if m ≤ 2 then (y : Int) - 1 else (y : Int)
  let mp : Int := if m > 2 then (m : Int) - 3 else (m : Int) + 9
  let era : Int := yAdj / 400
  let yoe : Int := yAdj - era * 400
  let doy : Int := (153 * mp + 2) / 5 + (d : Int) - 1
  let doe : Int := yoe * 365 + yoe / 4 - yoe / 100 + doy
  era * 146097 + doe - 719468

/-- `strptime(s, '%Y-%m-%d_%H:%M:%S')`, as a second count. -/
def parseTimestamp (s : String) : Option Int :=
  match s.data with
  | [y1, y2, y3, y4, p1, mo1, mo2, p2, d1, d2, p3, h1, h2, p4, mi1, mi2, p5, s1, s2] =>
    if p1 = '-' ∧ p2 = '-' ∧ p3 = '_' ∧ p4 = ':' ∧ p5 = ':' then
      match fourDigits y1 y2 y3 y4, twoDigits mo1 mo2, twoDigits d1 d2,
          twoDigits h1 h2, twoDigits mi1 mi2, twoDigits s1 s2 with
      | some y, some mo, some dd, some hh, some mi, some ss =>
        if 1 ≤ y ∧ 1 ≤ mo ∧ mo ≤ 12 ∧ 1 ≤ dd ∧ dd ≤ daysInMonth y mo ∧
            hh ≤ 23 ∧ mi ≤ 59 ∧ ss ≤ 59 then
          some (daysFromCivil y mo dd * 86400 +
            (hh : Int) * 3600 + (mi : Int) * 60 + (ss : Int))
        else none
      | _, _, _, _, _, _ => none
    else none
  | _ => none

/-! ### The contest lifecycle (card_golf.py lines 216-238 and 342-387) -/

/-- The externally visible actions of one run, in program order:
the `write_results(get_results())` call of line 237, the
`delete_temp_cards()` of line 352, the `send_tweet` of line 374, and
the `write_to_json_db(..., database=True)` of line 387. -/
inductive Event where
  | writeResults : String → Event
  | deleteTempCards : Event
  | postTweetAttempt : Event
  | persistRound : String → Event
deriving DecidableEq

/-- Is this a results-write action? -/
def Event.isWriteResults : Event → Bool
  | Event.writeResults _ => true
  | _ => false

/-- `max(json_db.keys())` (line 225): Python `max` over the keys in
iteration order with lexicographic string comparison, keeping the
earlier element on ties.  `none` models the `ValueError` on an empty
store, caught at lines 224-228. -/
def maxKeyOf (store : List (String × Json)) : Option String :=
  store.foldl (fun acc kv =>
    match acc with
    | none => some kv.1
    | some k => some (if k < kv.1 then kv.1 else k)) none

/-- `is_active_contest_already` (card_golf.py lines 216-238).

* empty store: the `ValueError` of `max` is caught and the function
  returns `False` without writing anything (lines 224-228);
* otherwise the max key is parsed (`none` here models the uncaught
  `ValueError` of `strptime` on a malformed key, which aborts the run);
* `current_contest_end_date = start + timedelta(days=1)` and the
  contest is still active when `not force_new_contest` and
  `end > now` (lines 230-235) — then nothing is written;
* otherwise `write_results(get_results())` runs (line 237, recorded as
  an event with the max key, which `write_results` re-reads at line
  337 to name the winners file) and the function returns `False`. -/
def is_active_contest_already (store : List (String × Json)) (now : Int)
    (force_new_contest : Bool) : Option (Bool × List Event) :=
  match maxKeyOf store with
  | none => some (false, [])
  | some max_key =>
    match parseTimestamp max_key with
    | none => none
    | some start =>
      if force_new_contest = false ∧ start + 86400 > now then some (true, [])
      else some (false, [Event.writeResults max_key])

/-- `send_tweet` (card_golf.py lines 100-129): with no media attached
the function raises `No image attached to tweet` (line 126, not caught
by the `except UnicodeDecodeError` handler); with media attached, an
encoding failure during the post raises `Tweet failed to send`
(lines 127-129); otherwise the posted tweet's id is returned. -/
def send_tweet (url_to_media : Option String) (encode_ok : Bool)
    (posted_id : Int) : Except String Int :=
  match url_to_media with
  | some _ =>
    if encode_ok then Except.ok posted_id
    else Except.error ("Tweet failed to send")
  | none => Except.error ("No image attached to tweet")

/-- Outcome of one `start_game` run: the actions taken in order, the
final contents of the tweet database, and the propagated error of an
aborted run, if any. -/
structure RunResult where
  events : List Event
  db : List (String × Json)
  err : Option String

/-- `start_game` (card_golf.py lines 342-387).

* `store` is the loaded tweet database, `now` the current time;
* if `is_active_contest_already` returns `True`, the run exits
  (line 348-349) without touching the store;
* otherwise the temp images are cleared, two random cards are fetched
  (parameters `card1`, `card2`), their images merged
  (`tweet_image_url`), and the tweet posted; a `send_tweet` exception
  propagates and aborts the run before anything is persisted;
* on success the round record is written under the key
  `time.strftime('%Y-%m-%d_%H:%M:%S')` (parameter `now_key`,
  line 193). -/
def start_game (store : List (String × Json)) (now : Int) (force_new : Bool)
    (card1 card2 : RCard) (tweet_image_url : Option String) (encode_ok : Bool)
    (posted_id : Int) (now_key : String) : RunResult :=
  match is_active_contest_already store now force_new with
  | none => ⟨[], store, some ("ValueError: time data does not match format")⟩
  | some (true, evs) => ⟨evs, store, none⟩
  | some (false, evs) =>
    match send_tweet tweet_image_url encode_ok posted_id with
    | Except.error e =>
      ⟨evs ++ [Event.deleteTempCards, Event.postTweetAttempt], store, some e⟩
    | Except.ok tid =>
      ⟨evs ++ [Event.deleteTempCards, Event.postTweetAttempt,
         Event.persistRound now_key],
       write_to_json_db_database (some store) now_key (roundJson tid card1 card2),
       none⟩

/-- The spec's three lifecycle states. -/
inductive ContestState where
  | NoContest
  | ContestActive
  | ContestExpired
deriving DecidableEq

/-- Modelled from the spec's wording of the lifecycle determination:
empty store (no max start time) means `NoContest`; a max-key round
whose start time plus 24 hours is strictly later than now, with no
force flag, means `ContestActive`; anything else means
`ContestExpired`. -/
def specLifecycleState (maxStart : Option Int) (now : Int) (force : Bool) :
    ContestState :=
  match maxStart with
  | none => ContestState.NoContest
  | some t =>
    if t + 86400 > now ∧ force = false then ContestState.ContestActive
    else ContestState.ContestExpired

/-- The parsed start time of the max-key round. -/
def maxStartTime (store : List (String × Json)) : Option Int :=
  (maxKeyOf store).bind parseTimestamp

/-- Observable classification of one lifecycle check: `True` means the
caller exits (active); `False` with a results write means the expired
round was tallied; `False` without one means the store was empty. -/
def runState : Option (Bool × List Event) → Option ContestState
  | none => none
  | some (true, _) => some ContestState.ContestActive
  | some (false, evs) =>
    some (if evs.any Event.isWriteResults then ContestState.ContestExpired
          else ContestState.NoContest)

/-- C1: on any store whose max key parses (or which is empty), the
lifecycle check realises exactly the spec's three-state function of
(max round start time, current time, force flag); in the active state
the run is a no-op (it returns `True` having taken no action); and an
empty store always classifies as `NoContest`. -/
theorem lifecycle_state_refines_spec (store : List (String × Json)) (now : Int)
    (force : Bool)
    (hparse : store = [] ∨ (maxStartTime store).isSome = true) :
    runState (is_active_contest_already store now force)
        = some (specLifecycleState (maxStartTime store) now force) ∧
    (specLifecycleState (maxStartTime store) now force = ContestState.ContestActive →
      is_active_contest_already store now force = some (true, [])) ∧
    (store = [] →
      runState (is_active_contest_already store now force)
        = some ContestState.NoContest) := by
  cases hm : maxKeyOf store with
  | none =>
    have hms : maxStartTime store = none := by simp [maxStartTime, hm]
    refine ⟨?_, ?_, ?_⟩
    · simp [is_active_contest_already, hm, hms, runState, specLifecycleState,
        Event.isWriteResults]
    · intro hact
      rw [hms] at hact
      exact absurd hact (by simp [specLifecycleState])
    · intro _
      simp [is_active_contest_already, hm, runState, Event.isWriteResults]
  | some max_key =>
    have hms : maxStartTime store = parseTimestamp max_key := by
      simp [maxStartTime, hm]
    cases hp : parseTimestamp max_key with
    | none =>
      rcases hparse with h | h
      · subst h
        exact absurd hm (by simp [maxKeyOf])
      · rw [hms, hp] at h
        exact absurd h (by simp)
    | some start =>
      rw [hms, hp]
      by_cases hf : force = false
      · by_cases ht : start + 86400 > now
        · have hcond : force = false ∧ start + 86400 > now := ⟨hf, ht⟩
          refine ⟨?_, ?_, ?_⟩
          · simp [is_active_contest_already, hm, hp, hcond, runState,
              specLifecycleState, hf, ht]
          · intro _
            simp [is_active_contest_already, hm, hp, hcond]
          · intro hempty
            subst hempty
            exact absurd hm (by simp [maxKeyOf])
        · have hcond : ¬(force = false ∧ start + 86400 > now) := by
            rintro ⟨_, hgt⟩; exact ht hgt
          refine ⟨?_, ?_, ?_⟩
          · simp [is_active_contest_already, hm, hp, hcond, runState,
              specLifecycleState, ht, Event.isWriteResults]
          · intro hact
            rw [specLifecycleState] at hact
            simp only [ht, false_and, if_neg] at hact
            exact absurd hact (by simp)
          · intro hempty
            subst hempty
            exact absurd hm (by simp [maxKeyOf])
      · have hcond : ¬(force = false ∧ start + 86400 > now) := by
          rintro ⟨hff, _⟩; exact hf hff
        refine ⟨?_, ?_, ?_⟩
        · simp [is_active_contest_already, hm, hp, hcond, runState,
            specLifecycleState, hf, Event.isWriteResults]
        · intro hact
          rw [specLifecycleState] at hact
          simp only [hf, and_false, if_neg] at hact
          exact absurd hact (by simp)
        · intro hempty
          subst hempty
          exact absurd hm (by simp [maxKeyOf])

/-- Witness for `lifecycle_state_refines_spec` at a concrete input: a
one-round store whose key parses to 1 second past the epoch, checked
at time 0 — the contest is still active. -/
theorem lifecycle_state_refines_spec_witness :
    runState (is_active_contest_already
        [(("1970-01-01_00:00:01"), Json.num 0)] 0 false)
      = some (specLifecycleState
          (maxStartTime [(("1970-01-01_00:00:01"), Json.num 0)]) 0 false) ∧
    (specLifecycleState (maxStartTime [(("1970-01-01_00:00:01"), Json.num 0)]) 0 false
        = ContestState.ContestActive →
      is_active_contest_already [(("1970-01-01_00:00:01"), Json.num 0)] 0 false
        = some (true, [])) ∧
    ([(("1970-01-01_00:00:01"), Json.num 0)] = ([] : List (String × Json)) →
      runState (is_active_contest_already
          [(("1970-01-01_00:00:01"), Json.num 0)] 0 false)
        = some ContestState.NoContest) :=
  lifecycle_state_refines_spec [(("1970-01-01_00:00:01"), Json.num 0)] 0 false
    (Or.inr (by decide))

/-- C2: (expired case) whenever the max-key round has expired (24
hours elapsed, or the force flag set) and the tweet posts
successfully, the run's action trace starts with the results write for
that round and only later contains the persist of the new round;
(empty-store case) on an empty store the run goes straight to starting
a new round — its trace is exactly clear-images, post, persist (no
results write), and the new round is stored. -/
theorem results_written_before_new_round (store : List (String × Json)) (now : Int)
    (force : Bool) (card1 card2 : RCard) (m : String) (posted_id : Int)
    (now_key : String) :
    (∀ max_key start, maxKeyOf store = some max_key →
      parseTimestamp max_key = some start →
      (force = true ∨ start + 86400 ≤ now) →
      ∃ l, (start_game store now force card1 card2 (some m) true posted_id
            now_key).events
          = Event.writeResults max_key :: l ∧ Event.persistRound now_key ∈ l) ∧
    (store = [] →
      (start_game store now force card1 card2 (some m) true posted_id
          now_key).events
        = [Event.deleteTempCards, Event.postTweetAttempt,
           Event.persistRound now_key] ∧
      (∀ k, Event.writeResults k ∉
        (start_game store now force card1 card2 (some m) true posted_id
          now_key).events) ∧
      (start_game store now force card1 card2 (some m) true posted_id
          now_key).db
        = insertKV now_key (roundJson posted_id card1 card2) store) := by
  constructor
  · intro max_key start hm hp hexp
    have hcond : ¬(force = false ∧ start + 86400 > now) := by
      rcases hexp with h | h
      · rintro ⟨hf, _⟩
        rw [h] at hf
        exact Bool.noConfusion hf
      · rintro ⟨_, hgt⟩
        omega
    have hact : is_active_contest_already store now force
        = some (false, [Event.writeResults max_key]) := by
      simp only [is_active_contest_already, hm, hp]
      rw [if_neg hcond]
    have hsend : send_tweet (some m) true posted_id = Except.ok posted_id := rfl
    simp only [start_game, hact, hsend]
    exact ⟨[Event.deleteTempCards, Event.postTweetAttempt,
      Event.persistRound now_key], rfl, by simp⟩
  · intro hempty
    subst hempty
    have hact : is_active_contest_already [] now force = some (false, []) := rfl
    have hsend : send_tweet (some m) true posted_id = Except.ok posted_id := rfl
    simp only [start_game, hact, hsend]
    refine ⟨rfl, ?_, rfl⟩
    intro k
    simp

/-- Witness for `results_written_before_new_round` at a concrete
input: a round started 1 second past the epoch, tallied at time 90000
(more than 24 hours later) — the results write precedes the persist of
the new round. -/
theorem results_written_before_new_round_witness :
    ∃ l, (start_game [(("1970-01-01_00:00:01"), Json.num 0)] 90000 false
          ⟨"A", "uA"⟩ ⟨"B", "uB"⟩ (some ("img.png")) true 7 ("1970-01-02_01:00:00")).events
        = Event.writeResults ("1970-01-01_00:00:01") :: l ∧
      Event.persistRound ("1970-01-02_01:00:00") ∈ l :=
  (results_written_before_new_round [(("1970-01-01_00:00:01"), Json.num 0)] 90000
      false ⟨"A", "uA"⟩ ⟨"B", "uB"⟩ "img.png" 7 ("1970-01-02_01:00:00")).1
    ("1970-01-01_00:00:01") 1 (by decide) (by decide) (Or.inr (by decide))

theorem is_active_events_shape (store : List (String × Json)) (now : Int)
    (force : Bool) (b : Bool) (evs : List Event)
    (h : is_active_contest_already store now force = some (b, evs)) :
    evs = [] ∨ ∃ k, evs = [Event.writeResults k] := by
  unfold is_active_contest_already at h
  split at h
  · injection h with h'
    injection h' with _ h2
    exact Or.inl h2.symm
  · split at h
    · exact Option.noConfusion h
    · split at h
      · injection h with h'
        injection h' with _ h2
        exact Or.inl h2.symm
      · injection h with h'
        injection h' with _ h2
        exact Or.inr ⟨_, h2.symm⟩

/-- C8: when the lifecycle check decided a new round must start but
the tweet cannot be posted (no image attached, or the message cannot
be encoded), the run aborts with an error, the tweet database is left
exactly as it was, and no round-persist action ever happens. -/
theorem posting_failure_leaves_store_unchanged (store : List (String × Json))
    (now : Int) (force : Bool) (card1 card2 : RCard)
    (tweet_image_url : Option String) (encode_ok : Bool) (posted_id : Int)
    (now_key : String) (evs : List Event)
    (hrun : is_active_contest_already store now force = some (false, evs))
    (hfail : tweet_image_url = none ∨ encode_ok = false) :
    (start_game store now force card1 card2 tweet_image_url encode_ok posted_id
        now_key).err.isSome = true ∧
    (start_game store now force card1 card2 tweet_image_url encode_ok posted_id
        now_key).db = store ∧
    ∀ k, Event.persistRound k ∉
      (start_game store now force card1 card2 tweet_image_url encode_ok posted_id
        now_key).events := by
  have hsend : ∃ e, send_tweet tweet_image_url encode_ok posted_id
      = Except.error e := by
    rcases hfail with h | h
    · subst h
      exact ⟨_, rfl⟩
    · subst h
      cases tweet_image_url with
      | none => exact ⟨_, rfl⟩
      | some mm => exact ⟨_, rfl⟩
  obtain ⟨e, he⟩ := hsend
  simp only [start_game, hrun, he]
  refine ⟨by trivial, by trivial, ?_⟩
  intro k
  simp only [List.mem_append]
  rintro (hin | hin)
  · rcases is_active_events_shape store now force false evs hrun with h | ⟨k', h⟩
    · subst h
      exact List.not_mem_nil _ hin
    · subst h
      simp at hin
  · simp at hin

/-- Witness for `posting_failure_leaves_store_unchanged` at a concrete
input: an empty store with no image available — the run errors out and
the store stays empty. -/
theorem posting_failure_leaves_store_unchanged_witness :
    (start_game [] 0 false ⟨"A", "uA"⟩ ⟨"B", "uB"⟩ none true 7 ("k")).err.isSome
        = true ∧
    (start_game [] 0 false ⟨"A", "uA"⟩ ⟨"B", "uB"⟩ none true 7 ("k")).db
        = ([] : List (String × Json)) ∧
    ∀ k, Event.persistRound k ∉
      (start_game [] 0 false ⟨"A", "uA"⟩ ⟨"B", "uB"⟩ none true 7 ("k")).events :=
  posting_failure_leaves_store_unchanged [] 0 false ⟨"A", "uA"⟩ ⟨"B", "uB"⟩
    none true 7 "k" [] rfl (Or.inl rfl)
